import Mathlib

/-!
Verification of the cache-token distribution utility
(src/internal/usage/token_distribution.go).

The Go code works on `int64`; token counts are modelled as exact integers
(`Int`), with Go's truncation-toward-zero division rendered as `Int.tdiv`.
All claims quantify over non-negative inputs, where `tdiv`, `fdiv` and
`ediv` by a positive constant coincide.
-/

namespace Usage

/-- Embedding of the Go struct `CacheTokenDistribution`: the distributed
token usage record with three integer fields. -/
structure CacheTokenDistribution where
  InputTokens : Int
  CacheCreationInputTokens : Int
  CacheReadInputTokens : Int
deriving Repr, DecidableEq

/-- `DistributionThreshold`: minimum token count for distribution to apply. -/
def DistributionThreshold : Int := 100

/-- Ratio part for plain input tokens (1 of 28). -/
def inputRatioPart : Int := 1

/-- Ratio part for cache-creation tokens (2 of 28). -/
def creationRatioPart : Int := 2

/-- Ratio part for cache-read tokens (25 of 28). -/
def readRatioPart : Int := 25

/-- Total ratio parts: 1 + 2 + 25 = 28. -/
def totalRatioParts : Int := inputRatioPart + creationRatioPart + readRatioPart

/-- Embedding of `DistributeCacheTokens`: applies the 1:2:25 token
distribution ratio. Below the threshold all tokens go to `InputTokens`
(the Go struct literal leaves the other two fields at their zero value);
otherwise the first two shares use Go integer division (truncation toward
zero, `Int.tdiv`) and the third share is the remainder. -/
def DistributeCacheTokens (totalInputTokens : Int) : CacheTokenDistribution :=
  if totalInputTokens < DistributionThreshold then
    { InputTokens := totalInputTokens
      CacheCreationInputTokens := 0
      CacheReadInputTokens := 0 }
  else
    let input := Int.tdiv (totalInputTokens * inputRatioPart) totalRatioParts
    let creation := Int.tdiv (totalInputTokens * creationRatioPart) totalRatioParts
    let read := totalInputTokens - input - creation
    { InputTokens := input
      CacheCreationInputTokens := creation
      CacheReadInputTokens := read }

/-- Go int64 wraparound: reduces an exact integer to the representable
range, mapping x to the unique value in the interval from -2^63 up to
2^63 - 1 that is congruent to x modulo 2^64. -/
def wrap64 (x : Int) : Int := (x + 2 ^ 63) % 2 ^ 64 - 2 ^ 63

/-- Int64-faithful embedding of `DistributeCacheTokens`: identical to
`DistributeCacheTokens` except that every int64 arithmetic operation of the
Go source wraps via `wrap64`. The multiplication by the creation ratio part
overflows for inputs at or above 2^62, so the two models diverge there;
they agree on all inputs below 2^62. -/
def DistributeCacheTokensI64 (totalInputTokens : Int) : CacheTokenDistribution :=
  if totalInputTokens < DistributionThreshold then
    { InputTokens := totalInputTokens
      CacheCreationInputTokens := 0
      CacheReadInputTokens := 0 }
  else
    let input := Int.tdiv (wrap64 (totalInputTokens * inputRatioPart)) totalRatioParts
    let creation := Int.tdiv (wrap64 (totalInputTokens * creationRatioPart)) totalRatioParts
    let read := wrap64 (wrap64 (totalInputTokens - input) - creation)
    { InputTokens := input
      CacheCreationInputTokens := creation
      CacheReadInputTokens := read }

/-- Embedding of the method `TotalInputTokens`: sum of the three fields. -/
def CacheTokenDistribution.TotalInputTokens (d : CacheTokenDistribution) : Int :=
  d.InputTokens + d.CacheCreationInputTokens + d.CacheReadInputTokens

/-- Embedding of the method `HasCacheTokens`: true if any cache tokens are
present. -/
def CacheTokenDistribution.HasCacheTokens (d : CacheTokenDistribution) : Bool :=
  d.CacheCreationInputTokens > 0 || d.CacheReadInputTokens > 0

/-- Below the threshold the function is a passthrough. -/
theorem distribute_below (t : Int) (h : t < 100) :
    DistributeCacheTokens t = ⟨t, 0, 0⟩ := by
  unfold DistributeCacheTokens DistributionThreshold
  rw [if_pos h]

/-- On and above the threshold the ratio branch is taken; for non-negative
input the truncating divisions coincide with Euclidean division. -/
theorem distribute_ratio (t : Int) (h : 100 ≤ t) :
    DistributeCacheTokens t = ⟨t / 28, t * 2 / 28, t - t / 28 - t * 2 / 28⟩ := by
  have e1 : Int.tdiv (t * 1) 28 = t / 28 := by
    rw [@Int.tdiv_eq_ediv (t * 1) 28 (by omega) (by omega), mul_one]
  have e2 : Int.tdiv (t * 2) 28 = t * 2 / 28 :=
    @Int.tdiv_eq_ediv (t * 2) 28 (by omega) (by omega)
  unfold DistributeCacheTokens
  rw [if_neg (show ¬ t < DistributionThreshold by
    unfold DistributionThreshold; omega)]
  show CacheTokenDistribution.mk (Int.tdiv (t * 1) 28) (Int.tdiv (t * 2) 28)
      (t - Int.tdiv (t * 1) 28 - Int.tdiv (t * 2) 28) =
    CacheTokenDistribution.mk (t / 28) (t * 2 / 28) (t - t / 28 - t * 2 / 28)
  rw [e1, e2]

/-- Values already in the int64 range are fixed by `wrap64`. -/
theorem wrap64_eq_self (x : Int) (h1 : -(2 ^ 63) ≤ x) (h2 : x < 2 ^ 63) :
    wrap64 x = x := by
  unfold wrap64
  omega

/-- Below 2^62 no operation of the ratio branch overflows, so the
int64-faithful model agrees with the exact-integer model. -/
theorem distributeI64_eq_distribute (t : Int) (h0 : 0 ≤ t) (h : t < 2 ^ 62) :
    DistributeCacheTokensI64 t = DistributeCacheTokens t := by
  by_cases hlt : t < 100
  · rw [distribute_below t hlt]
    unfold DistributeCacheTokensI64
    rw [if_pos (show t < DistributionThreshold by
      unfold DistributionThreshold; omega)]
  · have h100 : 100 ≤ t := by omega
    rw [distribute_ratio t h100]
    unfold DistributeCacheTokensI64
    rw [if_neg (show ¬ t < DistributionThreshold by
      unfold DistributionThreshold; omega)]
    show CacheTokenDistribution.mk
        (Int.tdiv (wrap64 (t * 1)) 28)
        (Int.tdiv (wrap64 (t * 2)) 28)
        (wrap64 (wrap64 (t - Int.tdiv (wrap64 (t * 1)) 28) -
          Int.tdiv (wrap64 (t * 2)) 28)) =
      CacheTokenDistribution.mk (t / 28) (t * 2 / 28) (t - t / 28 - t * 2 / 28)
    rw [wrap64_eq_self (t * 1) (by omega) (by omega),
      wrap64_eq_self (t * 2) (by omega) (by omega)]
    rw [@Int.tdiv_eq_ediv (t * 1) 28 (by omega) (by omega),
      @Int.tdiv_eq_ediv (t * 2) 28 (by omega) (by omega), mul_one]
    rw [wrap64_eq_self (t - t / 28) (by omega) (by omega)]
    rw [wrap64_eq_self (t - t / 28 - t * 2 / 28) (by omega) (by omega)]

/-- C1: for every non-negative integer t, the three fields of
`DistributeCacheTokens t` sum exactly to t, in both branches. -/
theorem c1_sum_invariant (t : Int) (h : 0 ≤ t) :
    (DistributeCacheTokens t).InputTokens +
      (DistributeCacheTokens t).CacheCreationInputTokens +
      (DistributeCacheTokens t).CacheReadInputTokens = t := by
  by_cases hlt : t < 100
  · rw [distribute_below t hlt]
    show t + 0 + 0 = t
    ring
  · rw [distribute_ratio t (by omega)]
    show t / 28 + t * 2 / 28 + (t - t / 28 - t * 2 / 28) = t
    ring

/-- C1 witness: the sum invariant at t = 1000. -/
theorem c1_sum_invariant_witness :
    (DistributeCacheTokens 1000).InputTokens +
      (DistributeCacheTokens 1000).CacheCreationInputTokens +
      (DistributeCacheTokens 1000).CacheReadInputTokens = 1000 :=
  c1_sum_invariant 1000 (by decide)

/-- C2 counterexample: at t = 2^62 (a valid non-negative int64) the int64
multiplication t * 2 wraps, so the program's creation share is a negative
value, not floor(t * 2 / 28): the claim as stated is false for t ≥ 2^62. -/
theorem c2_floor_shares_cex :
    ¬ ((DistributeCacheTokensI64 (2 ^ 62)).InputTokens =
          Int.fdiv (2 ^ 62 * 1) 28 ∧
        (DistributeCacheTokensI64 (2 ^ 62)).CacheCreationInputTokens =
          Int.fdiv (2 ^ 62 * 2) 28) := by
  decide

/-- C2 amended: for every t with 100 ≤ t < 2^62 (so that no int64
operation overflows), the int64 program sets inputTokens = floor(t * 1 / 28)
and cacheCreationInputTokens = floor(t * 2 / 28) exactly. -/
theorem c2_floor_shares_amended (t : Int) (h : 100 ≤ t) (h2 : t < 2 ^ 62) :
    (DistributeCacheTokensI64 t).InputTokens = Int.fdiv (t * 1) 28 ∧
      (DistributeCacheTokensI64 t).CacheCreationInputTokens = Int.fdiv (t * 2) 28 := by
  rw [distributeI64_eq_distribute t (by omega) h2, distribute_ratio t h]
  rw [Int.fdiv_eq_ediv (t * 1) (by omega), Int.fdiv_eq_ediv (t * 2) (by omega)]
  constructor
  · rw [mul_one]
  · rfl

/-- C2 witness: the floor shares at t = 1000. -/
theorem c2_floor_shares_amended_witness :
    (DistributeCacheTokensI64 1000).InputTokens = Int.fdiv (1000 * 1) 28 ∧
      (DistributeCacheTokensI64 1000).CacheCreationInputTokens =
        Int.fdiv (1000 * 2) 28 :=
  c2_floor_shares_amended 1000 (by decide) (by decide)

/-- C3: for every non-negative t < 100 the result is the passthrough
distribution {t, 0, 0}; in particular distribute(0) = {0, 0, 0}. -/
theorem c3_passthrough (t : Int) (h0 : 0 ≤ t) (h : t < 100) :
    DistributeCacheTokens t = ⟨t, 0, 0⟩ ∧ DistributeCacheTokens 0 = ⟨0, 0, 0⟩ :=
  ⟨distribute_below t h, distribute_below 0 (by decide)⟩

/-- C3 witness: the passthrough at t = 42. -/
theorem c3_passthrough_witness :
    DistributeCacheTokens 42 = ⟨42, 0, 0⟩ ∧ DistributeCacheTokens 0 = ⟨0, 0, 0⟩ :=
  c3_passthrough 42 (by decide) (by decide)

/-- C4: at the threshold boundary, distribute(99) = {99, 0, 0} while
distribute(100) takes the ratio split: {3, 7, 90}. -/
theorem c4_threshold_boundary :
    DistributeCacheTokens 99 = ⟨99, 0, 0⟩ ∧
      DistributeCacheTokens 100 = ⟨3, 7, 90⟩ := by
  constructor <;> decide

/-- C5: distribute(1000) = {35, 71, 894}. -/
theorem c5_worked_example :
    DistributeCacheTokens 1000 = ⟨35, 71, 894⟩ := by
  decide

/-- C6: round-trip: TotalInputTokens (distribute t) = t for every
non-negative t. -/
theorem c6_round_trip (t : Int) (h : 0 ≤ t) :
    (DistributeCacheTokens t).TotalInputTokens = t := by
  unfold CacheTokenDistribution.TotalInputTokens
  exact c1_sum_invariant t h

/-- C6 witness: the round trip at t = 12345. -/
theorem c6_round_trip_witness :
    (DistributeCacheTokens 12345).TotalInputTokens = 12345 :=
  c6_round_trip 12345 (by decide)

/-- C7: HasCacheTokens d is true iff creation > 0 or read > 0, and
HasCacheTokens (distribute t) is false for every non-negative t < 100. -/
theorem c7_has_cache_tokens (d : CacheTokenDistribution) (t : Int)
    (h0 : 0 ≤ t) (h : t < 100) :
    (d.HasCacheTokens = true ↔
        d.CacheCreationInputTokens > 0 ∨ d.CacheReadInputTokens > 0) ∧
      (DistributeCacheTokens t).HasCacheTokens = false := by
  constructor
  · unfold CacheTokenDistribution.HasCacheTokens
    simp only [Bool.or_eq_true, decide_eq_true_eq]
  · rw [distribute_below t h]
    rfl

/-- C7 witness: the characterisation at d = {1, 2, 3} and t = 0. -/
theorem c7_has_cache_tokens_witness :
    ((⟨1, 2, 3⟩ : CacheTokenDistribution).HasCacheTokens = true ↔
        (⟨1, 2, 3⟩ : CacheTokenDistribution).CacheCreationInputTokens > 0 ∨
          (⟨1, 2, 3⟩ : CacheTokenDistribution).CacheReadInputTokens > 0) ∧
      (DistributeCacheTokens 0).HasCacheTokens = false :=
  c7_has_cache_tokens ⟨1, 2, 3⟩ 0 (by decide) (by decide)

/-- C8 counterexample: at t = 2^62 the int64 wrap makes the program store
a negative CacheCreationInputTokens, so the non-negativity claim as stated
is false for t ≥ 2^62. -/
theorem c8_nonneg_fields_cex :
    ¬ (0 ≤ (DistributeCacheTokensI64 (2 ^ 62)).InputTokens ∧
        0 ≤ (DistributeCacheTokensI64 (2 ^ 62)).CacheCreationInputTokens ∧
        0 ≤ (DistributeCacheTokensI64 (2 ^ 62)).CacheReadInputTokens) := by
  decide

/-- C8 amended: for every t with 0 ≤ t < 2^62 (so that no int64 operation
overflows), each field of the int64 program's result is ≥ 0. -/
theorem c8_nonneg_fields_amended (t : Int) (h : 0 ≤ t) (h2 : t < 2 ^ 62) :
    0 ≤ (DistributeCacheTokensI64 t).InputTokens ∧
      0 ≤ (DistributeCacheTokensI64 t).CacheCreationInputTokens ∧
      0 ≤ (DistributeCacheTokensI64 t).CacheReadInputTokens := by
  rw [distributeI64_eq_distribute t h h2]
  by_cases hlt : t < 100
  · rw [distribute_below t hlt]
    exact ⟨h, le_refl 0, le_refl 0⟩
  · rw [distribute_ratio t (by omega)]
    refine ⟨?_, ?_, ?_⟩
    · show 0 ≤ t / 28
      omega
    · show 0 ≤ t * 2 / 28
      omega
    · show 0 ≤ t - t / 28 - t * 2 / 28
      omega

/-- C8 witness: non-negativity at t = 101. -/
theorem c8_nonneg_fields_amended_witness :
    0 ≤ (DistributeCacheTokensI64 101).InputTokens ∧
      0 ≤ (DistributeCacheTokensI64 101).CacheCreationInputTokens ∧
      0 ≤ (DistributeCacheTokensI64 101).CacheReadInputTokens :=
  c8_nonneg_fields_amended 101 (by decide) (by decide)

/-- C9: totality: the embedding is a total function that always returns a
CacheTokenDistribution result for every input, with no error branch. -/
theorem c9_total : ∀ t : Int, ∃ d : CacheTokenDistribution,
    DistributeCacheTokens t = d :=
  fun t => ⟨DistributeCacheTokens t, rfl⟩

/-- C10: for non-negative t, if t ≥ 100 then all three fields are at least
3, 7 and 90 respectively; and HasCacheTokens (distribute t) is true exactly
when t ≥ 100. -/
theorem c10_cache_iff_threshold (t : Int) (h : 0 ≤ t) :
    (100 ≤ t →
        3 ≤ (DistributeCacheTokens t).InputTokens ∧
          7 ≤ (DistributeCacheTokens t).CacheCreationInputTokens ∧
          90 ≤ (DistributeCacheTokens t).CacheReadInputTokens) ∧
      ((DistributeCacheTokens t).HasCacheTokens = true ↔ 100 ≤ t) := by
  by_cases hlt : t < 100
  · rw [distribute_below t hlt]
    refine ⟨fun hc => absurd hc (by omega), ?_⟩
    unfold CacheTokenDistribution.HasCacheTokens
    simp only [Bool.or_eq_true, decide_eq_true_eq]
    show ((0 : Int) > 0 ∨ (0 : Int) > 0) ↔ 100 ≤ t
    omega
  · rw [distribute_ratio t (by omega)]
    have hfields : 3 ≤ t / 28 ∧ 7 ≤ t * 2 / 28 ∧
        90 ≤ t - t / 28 - t * 2 / 28 := by
      refine ⟨?_, ?_, ?_⟩ <;> omega
    refine ⟨fun _ => hfields, ?_⟩
    unfold CacheTokenDistribution.HasCacheTokens
    simp only [Bool.or_eq_true, decide_eq_true_eq]
    show (t * 2 / 28 > 0 ∨ t - t / 28 - t * 2 / 28 > 0) ↔ 100 ≤ t
    omega

/-- C10 witness: the characterisation at t = 100. -/
theorem c10_cache_iff_threshold_witness :
    (100 ≤ (100 : Int) →
        3 ≤ (DistributeCacheTokens 100).InputTokens ∧
          7 ≤ (DistributeCacheTokens 100).CacheCreationInputTokens ∧
          90 ≤ (DistributeCacheTokens 100).CacheReadInputTokens) ∧
      ((DistributeCacheTokens 100).HasCacheTokens = true ↔ 100 ≤ (100 : Int)) :=
  c10_cache_iff_threshold 100 (by decide)

end Usage
